import Mathlib

/-!
# Verification of the Devweb project generator (src/index.js)

Shallow embedding of the transactional generation engine of the repository:
`Validator.sanitizePath`, `FileSystemManager` (createDirectory / writeFile /
rollback and its two ledger arrays `createdFiles` / `createdDirs`),
`PackageManager.installDependencies` (subprocess with timeout),
`ProjectGenerator` (createStructure / generateFiles / installDependencies /
postGeneration / generate).

Modelling conventions:
* A `Path` is the slash-split segment list of the JavaScript path string,
  taken relative to `process.cwd()` (the working directory is the segment
  list `[]`, which always exists).  All paths the generator builds are
  `path.join(process.cwd(), ...)` of literal relative strings, so the
  cwd-relative view is faithful.
* Node's `path.normalize` (posix) is modelled at segment level by
  `normSegs`: it drops empty and `.` segments and resolves `..` against a
  preceding non-`..` segment.  Trailing-slash preservation and absolute
  paths are outside the scope of every claim and are not modelled.
* The source's traversal check is `normalized.includes('..')` on the whole
  string.  Since the separator `/` can never sit between the two dots of a
  `..` occurrence, the string contains `..` iff some normalized segment
  contains two consecutive dots; the check is therefore embedded as
  `(normSegs p).any segHasDotDot`.
* File contents are arbitrary opaque payloads from the engine's point of
  view (spec §1), so the filesystem records only which paths exist and
  whether each is a file or a directory.
* Failure injection: deleting a path during rollback may throw in the
  source (`unlinkSync` / `rmdirSync`); this is modelled by an oracle
  `fail : Path → Bool` consulted at each deletion attempt.  Creation-time
  OS failures are not needed by any claim settled below.
-/

namespace Devweb

abbrev Path := List String

/-- Character-level splitting on `/` (the semantics of `s.split('/')` /
`String.splitOn "/"`, re-implemented so that it reduces inside the
kernel). -/
def splitSlash : List Char → List (List Char)
  | [] => [[]]
  | c :: rest =>
    let r := splitSlash rest
    if c = '/' then [] :: r
    else match r with
      | s :: ss => (c :: s) :: ss
      | [] => [[c]]

/-- Split a JavaScript path string into raw segments (`p.split('/')`). -/
def parsePath (s : String) : List String := (splitSlash s.data).map String.mk

/-- Join segments back into a path string. -/
def renderPath (segs : List String) : String := String.intercalate ("/") segs

/-- Two consecutive `.` characters occur somewhere in the character list. -/
def charsHaveDotDot : List Char → Bool
  | '.' :: '.' :: _ => true
  | _ :: cs => charsHaveDotDot cs
  | [] => false

/-- The segment contains the two-character substring `..`. -/
def segHasDotDot (seg : String) : Bool := charsHaveDotDot seg.data

/-- One step of posix `path.normalize` segment resolution:
empty and `.` segments vanish, `..` cancels a preceding non-`..` segment
and is otherwise kept (relative paths keep leading `..` runs). -/
def normStep (stack : List String) (seg : String) : List String :=
  if seg = "" ∨ seg = "." then stack
  else if seg = ".." then
    match stack.getLast? with
    | some last => if last = ".." then stack ++ [".."] else stack.dropLast
    | none => [".."]
  else stack ++ [seg]

/-- Segment-level `path.normalize` for relative posix paths. -/
def normSegs (segs : List String) : List String := segs.foldl normStep []

/-- Node `path.normalize` on a relative path string (`normalize('') = '.'`). -/
def normalize (s : String) : String :=
  let r := normSegs (parsePath s)
  if r = [] then (".") else renderPath r

/-- The normalized form of the string contains `..` as a substring —
this is exactly the condition `normalized.includes('..')` tested by
`Validator.sanitizePath` (src/index.js:159). -/
def sanitizeCheck (s : String) : Bool :=
  (normSegs (parsePath s)).any segHasDotDot

inductive PathError
  | pathTraversal
deriving DecidableEq

/-- Embedding of `Validator.sanitizePath` (src/index.js:157-163): normalize, then throw
`Path traversal detected` when the normalized string contains `..`. -/
def sanitizePath (s : String) : Except PathError String :=
  if sanitizeCheck s then .error .pathTraversal else .ok (normalize s)

/-- Spec-side notion (§4.1): the path string has a genuine parent-directory
escape segment, i.e. one of its `/`-separated segments is exactly `..`. -/
def hasParentSegment (s : String) : Bool := (parsePath s).contains ("..")

/-- Spec-side notion at segment level: some segment is exactly `..`. -/
def hasEscapeSeg (segs : List String) : Bool := segs.contains ("..")

/-! ## Filesystem state -/

/-- The on-disk state: which paths currently exist as directories and which
as regular files.  The working directory `[]` implicitly always exists. -/
structure FsState where
  dirs : List Path
  files : List Path
deriving DecidableEq

def FsState.empty : FsState := ⟨[], []⟩

/-- Model of `fs.existsSync`. -/
def FsState.existsPath (st : FsState) (p : Path) : Bool :=
  p = [] || st.dirs.contains p || st.files.contains p

/-- The nonempty initial segments of a path, shortest first:
the chain of directories `mkdirSync {recursive}` materializes. -/
def ancestorChains (p : Path) : List Path :=
  (List.range p.length).map (fun i => p.take (i + 1))

def addPathIfAbsent (l : List Path) (p : Path) : List Path :=
  if l.contains p then l else l ++ [p]

/-- Model of `fs.mkdirSync(p, {recursive: true})`: every missing ancestor of `p`
(and `p` itself) becomes a directory. -/
def FsState.mkdirRecursive (st : FsState) (p : Path) : FsState :=
  { st with dirs := (ancestorChains p).foldl addPathIfAbsent st.dirs }

/-- Whether `q` is a direct child of `d`. -/
def isChildOf (q d : Path) : Bool := !q.isEmpty && q.dropLast = d

/-- Model of `fs.readdirSync(d).length === 0`: no existing entry is a direct child. -/
def FsState.readdirEmpty (st : FsState) (d : Path) : Bool :=
  !(st.dirs.any (fun q => isChildOf q d)) && !(st.files.any (fun q => isChildOf q d))

/-! ## FileSystemManager (src/index.js:170-263)

The manager owns the two ledger arrays `createdFiles` and `createdDirs`.
`events` is a ghost field recording the single interleaved creation order of
ledger entries (it mirrors exactly the two `push` sites and is never read by
the operational code); it lets the theorems talk about global creation
order. -/

inductive LEntry
  | dir (p : Path)
  | file (p : Path)
deriving DecidableEq

inductive FsError
  | dirCreateFailed
  | fileWriteFailed
deriving DecidableEq

structure Mgr where
  fs : FsState
  createdFiles : List Path
  createdDirs : List Path
  events : List LEntry
deriving DecidableEq

def Mgr.empty : Mgr := ⟨FsState.empty, [], [], []⟩

/-- Embedding of `FileSystemManager.createDirectory` (src/index.js:177-192):
sanitize (a traversal throw is wrapped into `Directory creation failed`);
if the path already exists the call is a no-op returning success; otherwise
create it recursively and push exactly the leaf path onto `createdDirs`. -/
def Mgr.createDirectory (m : Mgr) (p : Path) : Except FsError Mgr :=
  let sp := normSegs p
  if sp.any segHasDotDot then .error .dirCreateFailed
  else if m.fs.existsPath sp then .ok m
  else .ok { m with
    fs := m.fs.mkdirRecursive sp,
    createdDirs := m.createdDirs ++ [sp],
    events := m.events ++ [.dir sp] }

/-- Embedding of `FileSystemManager.writeFile` (src/index.js:194-217):
sanitize; ensure the parent directory exists (recursing into
`createDirectory`, whose failure is re-wrapped as `File write failed`);
write the file (overwrite allowed; writing where a directory sits, or under
a parent that exists as a file, throws) and push the path onto
`createdFiles`. -/
def Mgr.writeFile (m : Mgr) (p : Path) : Except FsError Mgr :=
  let sp := normSegs p
  if sp.any segHasDotDot then .error .fileWriteFailed
  else
    let dir := sp.dropLast
    let ensured : Except FsError Mgr :=
      if m.fs.existsPath dir then .ok m
      else match m.createDirectory dir with
        | .ok m' => .ok m'
        | .error _ => .error .fileWriteFailed
    match ensured with
    | .error e => .error e
    | .ok m1 =>
      if m1.fs.dirs.contains sp then .error .fileWriteFailed
      else if !dir.isEmpty && m1.fs.files.contains dir then .error .fileWriteFailed
      else .ok { m1 with
        fs := { m1.fs with files := addPathIfAbsent m1.fs.files sp },
        createdFiles := m1.createdFiles ++ [sp],
        events := m1.events ++ [.file sp] }

/-! ## Rollback (src/index.js:219-253) -/

/-- One observable action of the rollback sweep, mirroring the debug /
error log lines the source emits per ledger entry. -/
inductive RbAction
  | deletedFile (p : Path)
  | missingFile (p : Path)
  | failedFile (p : Path)
  | deletedDir (p : Path)
  | skippedDir (p : Path)
  | failedDir (p : Path)
deriving DecidableEq

def RbAction.isFailure : RbAction → Bool
  | .failedFile _ => true
  | .failedDir _ => true
  | _ => false

/-- Project a rollback action to the ledger entry it processed. -/
def RbAction.entry : RbAction → LEntry
  | .deletedFile p => .file p
  | .missingFile p => .file p
  | .failedFile p => .file p
  | .deletedDir p => .dir p
  | .skippedDir p => .dir p
  | .failedDir p => .dir p

def traceToEntries (tr : List RbAction) : List LEntry := tr.map RbAction.entry

structure RbState where
  fs : FsState
  errors : Nat
  trace : List RbAction
deriving DecidableEq

/-- File phase of the sweep: `if (existsSync(file)) unlinkSync(file)` inside
a try/catch that only increments the error counter.  An existing path that
is not a regular file (so `unlinkSync` throws), or an injected deletion
failure, counts as one error; an already-absent file is tolerated. -/
def rbFileStep (fail : Path → Bool) (acc : RbState) (p : Path) : RbState :=
  if acc.fs.existsPath p then
    if acc.fs.files.contains p && !(fail p) then
      { fs := { acc.fs with files := acc.fs.files.filter (· ≠ p) },
        errors := acc.errors,
        trace := acc.trace ++ [.deletedFile p] }
    else
      { acc with errors := acc.errors + 1, trace := acc.trace ++ [.failedFile p] }
  else
    { acc with trace := acc.trace ++ [.missingFile p] }

/-- Directory phase: `if (existsSync(dir) && readdirSync(dir).length === 0)
rmdirSync(dir)` in a try/catch.  A non-empty or absent directory is skipped
silently (no error is counted); an existing empty entry that is not a
directory, or an injected failure, counts one error. -/
def rbDirStep (fail : Path → Bool) (acc : RbState) (p : Path) : RbState :=
  if acc.fs.existsPath p && acc.fs.readdirEmpty p then
    if acc.fs.dirs.contains p && !(fail p) then
      { fs := { acc.fs with dirs := acc.fs.dirs.filter (· ≠ p) },
        errors := acc.errors,
        trace := acc.trace ++ [.deletedDir p] }
    else
      { acc with errors := acc.errors + 1, trace := acc.trace ++ [.failedDir p] }
  else
    { acc with trace := acc.trace ++ [.skippedDir p] }

/-- Embedding of `FileSystemManager.rollback` (src/index.js:219-253): iterate
`createdFiles.reverse()` deleting files, then `createdDirs.reverse()`
deleting empty directories; every entry is attempted, failures only bump a
counter which is logged (the method returns nothing to its caller).  The
JavaScript `Array.prototype.reverse` mutates in place, so the manager's
ledger arrays are left reversed — and not cleared — after the sweep. -/
def Mgr.rollback (m : Mgr) (fail : Path → Bool) : Mgr × Nat × List RbAction :=
  let rf := m.createdFiles.reverse
  let rd := m.createdDirs.reverse
  let acc1 := rf.foldl (rbFileStep fail) ⟨m.fs, 0, []⟩
  let acc2 := rd.foldl (rbDirStep fail) acc1
  ({ m with fs := acc2.fs, createdFiles := rf, createdDirs := rd },
   acc2.errors, acc2.trace)

/-! ## PackageManager.installDependencies (src/index.js:275-324)

The promise races the `close` event of the spawned subprocess against a
`setTimeout` for `CONFIG.TIMEOUT` milliseconds.  A simulated subprocess is
described by the time at which its `close` event fires (or never) and its
exit code; the outcome records the settled result, whether any kill signal
was ever sent to the child, and whether the child is still running when the
promise settles. -/

def CONFIG_TIMEOUT : Nat := 300000

structure SpawnSim where
  closeAt : Option Nat
  exitCode : Int
deriving DecidableEq

inductive InstallResult
  | installedOk
  | timedOut (seconds : Nat)
  | exitFailure (code : Int)
deriving DecidableEq

structure RunOutcome where
  result : InstallResult
  killIssued : Bool
  childRunsAfter : Bool
deriving DecidableEq

/-- Embedding of `PackageManager.installDependencies`: if `close` fires before the timer,
the timer is cleared and the promise settles by exit code; if the timer
fires first, the promise rejects with
`Installation timeout after ${CONFIG.TIMEOUT / 1000} seconds` — and the
source contains no `child.kill()` call anywhere, so no kill signal is ever
issued and the subprocess keeps running past the rejection. -/
def pmInstall (sim : SpawnSim) : RunOutcome :=
  match sim.closeAt with
  | some t =>
    if t < CONFIG_TIMEOUT then
      { result := if sim.exitCode = 0 then .installedOk else .exitFailure sim.exitCode,
        killIssued := false, childRunsAfter := false }
    else
      { result := .timedOut (CONFIG_TIMEOUT / 1000),
        killIssued := false, childRunsAfter := true }
  | none =>
      { result := .timedOut (CONFIG_TIMEOUT / 1000),
        killIssued := false, childRunsAfter := true }

/-- The simulated subprocess has not exited when the timeout elapses. -/
def SpawnSim.outlivesTimeout (sim : SpawnSim) : Prop :=
  ∀ t, sim.closeAt = some t → CONFIG_TIMEOUT ≤ t

instance (sim : SpawnSim) : Decidable sim.outlivesTimeout := by
  unfold SpawnSim.outlivesTimeout; infer_instance

/-! ## ProjectGenerator (src/index.js:419-1383) -/

structure Features where
  authentication : Bool
  linter : Bool
deriving DecidableEq

inductive DbChoice
  | noDb
  | mysql
  | postgresql
  | mongodb
deriving DecidableEq

/-- The Configuration record consumed by `generate` (spec §3).  `useEjs`
models `config.useEjs === 'EJS (Dynamic)'`.  `port` only influences file
contents, which are opaque payloads here, so it is omitted. -/
structure GenConfig where
  projectName : String
  useEjs : Bool
  useDB : DbChoice
  features : Features
  initGit : Bool
deriving DecidableEq

def rootDir (cfg : GenConfig) : Path := [cfg.projectName]

/-- Embedding of `ProjectGenerator.createStructure` (src/index.js:450-477): the fixed
skeleton, plus the view folders in EJS mode, relative to the root. -/
def skeletonDirs (useEjs : Bool) : List Path :=
  [["src", "services"], ["src", "routes"], ["src", "middleware"],
   ["src", "utils"], ["src", "config"],
   ["public", "css"], ["public", "js"], ["public", "images"], ["public", "uploads"],
   ["tests"], ["logs"]] ++
  (if useEjs then [["views", "components"], ["views", "pages"], ["views", "layouts"]]
   else [])

/-- Embedding of `ProjectGenerator.getFileTemplates` (src/index.js:493-546): the keys of
the template map in insertion order, relative to the root. -/
def templateFiles (cfg : GenConfig) : List Path :=
  [["src", "app.js"], ["src", "server.js"], ["package.json"],
   [".env"], [".env.example"], [".gitignore"], ["README.md"],
   ["src", "routes", "index.js"]] ++
  (if cfg.useDB ≠ .noDb then [["src", "config", "database.js"]] else []) ++
  (if cfg.features.authentication then [["src", "middleware", "auth.js"]] else []) ++
  (if cfg.useEjs then
     [["views", "pages", "index.ejs"], ["views", "pages", "404.ejs"],
      ["views", "layouts", "header.ejs"], ["views", "layouts", "footer.ejs"]]
   else [["public", "index.html"]]) ++
  [["public", "css", "style.css"], ["public", "js", "main.js"]]

/-- One `packageManager.installDependencies` invocation: the package list
and the truthiness of the `dev` argument (which selects `--save-dev`). -/
structure InstallReq where
  packages : List String
  dev : Bool
deriving DecidableEq

/-- Embedding of `ProjectGenerator.installDependencies` (src/index.js:1339-1368): the
sequence of package-manager invocations a run issues.  Note the first call
passes the object `{ flags: '--no-bin-links' }` as the `dev` parameter,
which is truthy, so the base runtime packages are issued with the dev flag;
the linter call passes the single string `'eslint prettier'`, which the
callee wraps into a one-element array. -/
def installPlan (cfg : GenConfig) : List InstallReq :=
  [⟨["express", "cors", "dotenv", "helmet", "morgan"], true⟩] ++
  (if cfg.useEjs then [⟨["ejs"], false⟩] else []) ++
  (match cfg.useDB with
   | .mysql => [⟨["mysql2"], false⟩]
   | .postgresql => [⟨["pg"], false⟩]
   | .mongodb => [⟨["mongodb"], false⟩]
   | .noDb => []) ++
  (if cfg.features.authentication then [⟨["jsonwebtoken"], false⟩] else []) ++
  [⟨["nodemon"], true⟩] ++
  (if cfg.features.linter then [⟨["eslint prettier"], true⟩] else [])

/-- Issue the planned invocations sequentially; `ok` scripts each
subprocess's success.  Returns the invocations actually issued and the
first failing one, if any: a rejection short-circuits every later call. -/
def runInstalls (ok : InstallReq → Bool) : List InstallReq → List InstallReq × Option InstallReq
  | [] => ([], none)
  | r :: rest =>
    if ok r then
      let (ex, res) := runInstalls ok rest
      (r :: ex, res)
    else ([r], some r)

inductive GenError
  | fsErr (e : FsError)
  | installFailed (req : InstallReq)
deriving DecidableEq

/-- Stage 1 loop: create each skeleton directory in order; the manager's
mutations performed before a failure persist (JavaScript exception
semantics). -/
def createDirsSeq (m : Mgr) : List Path → Mgr × Option FsError
  | [] => (m, none)
  | p :: ps =>
    match m.createDirectory p with
    | .ok m' => createDirsSeq m' ps
    | .error e => (m, some e)

/-- Stage 2 loop: write each template file in order. -/
def writeFilesSeq (m : Mgr) : List Path → Mgr × Option FsError
  | [] => (m, none)
  | p :: ps =>
    match m.writeFile p with
    | .ok m' => writeFilesSeq m' ps
    | .error e => (m, some e)

/-- Stages 1-3 of `ProjectGenerator.generate`: structure creation, file
generation, dependency installation.  Returns the manager state reached
(even on failure) and the error, if any. -/
def runStages123 (cfg : GenConfig) (m0 : Mgr) (instOk : InstallReq → Bool) :
    Mgr × Option GenError :=
  let (m1, e1) := createDirsSeq m0 ((skeletonDirs cfg.useEjs).map (rootDir cfg ++ ·))
  match e1 with
  | some e => (m1, some (.fsErr e))
  | none =>
    let (m2, e2) := writeFilesSeq m1 ((templateFiles cfg).map (rootDir cfg ++ ·))
    match e2 with
    | some e => (m2, some (.fsErr e))
    | none =>
      match (runInstalls instOk (installPlan cfg)).2 with
      | some r => (m2, some (.installFailed r))
      | none => (m2, none)

/-- Embedding of `ProjectGenerator.postGeneration` (src/index.js:1370-1382): the git-init
hook runs only when `initGit` is set, and its failure is caught inside the
method and logged as a warning — it never propagates. -/
def postGenerationWarn (cfg : GenConfig) (gitFails : Bool) : Bool :=
  cfg.initGit && gitFails

structure GenResult where
  error : Option GenError
  mgr : Mgr
  rolledBack : Bool
  rbErrors : Nat
  gitWarned : Bool
deriving DecidableEq

/-- Embedding of `ProjectGenerator.generate` (src/index.js:427-448): stages 1-3 guarded
by the catch that rolls back and re-raises; stage 4 runs only after the
first three succeed and cannot fail the call. -/
def generate (cfg : GenConfig) (m0 : Mgr) (instOk : InstallReq → Bool)
    (delFail : Path → Bool) (gitFails : Bool) : GenResult :=
  match runStages123 cfg m0 instOk with
  | (m, some e) =>
    let (m', errs, _) := m.rollback delFail
    { error := some e, mgr := m', rolledBack := true, rbErrors := errs,
      gitWarned := false }
  | (m, none) =>
    { error := none, mgr := m, rolledBack := false, rbErrors := 0,
      gitWarned := postGenerationWarn cfg gitFails }

/-! ## Shared concrete scenarios and observables -/

deriving instance DecidableEq for Except

/-- Number of rollback actions that raised (and were counted by the error
counter in src/index.js:222-249). -/
def countFailures (tr : List RbAction) : Nat :=
  (tr.filter RbAction.isFailure).length

/-- The spec §8 minimal configuration: `{projectName: "demo",
templateMode: api-only/static, datastore: none, features: {},
initVersionControl: false}`. -/
def demoCfg : GenConfig := ⟨"demo", false, .noDb, ⟨false, false⟩, false⟩

/-- The same configuration with version-control initialization enabled. -/
def demoGitCfg : GenConfig := ⟨"demo", false, .noDb, ⟨false, false⟩, true⟩

/-- The spec §8 forced-install-failure scenario: every package-manager
subprocess fails, deletions during rollback all succeed. -/
def demoFailRun : GenResult :=
  generate demoCfg Mgr.empty (fun _ => false) (fun _ => false) false

/-- A fully successful run of the same configuration. -/
def demoOkRun : GenResult :=
  generate demoCfg Mgr.empty (fun _ => true) (fun _ => false) false

/-- A configuration whose feature flags add a third install invocation. -/
def authCfg : GenConfig := ⟨"app", false, .noDb, ⟨true, false⟩, false⟩

def baseReq : InstallReq := ⟨["express", "cors", "dotenv", "helmet", "morgan"], true⟩

def nodemonReq : InstallReq := ⟨["nodemon"], true⟩

/-- A ledger state in which the single tracked directory `d` contains a
foreign file `d/x` that no ledger entry owns (e.g. dropped there by the
user mid-run). -/
def strandedMgr : Mgr :=
  { fs := ⟨[["d"]], [["d", "x"]]⟩, createdFiles := [], createdDirs := [["d"]],
    events := [.dir ["d"]] }

/-- A ledger state with one tracked file that still exists on disk. -/
def simpleMgr : Mgr :=
  { fs := ⟨[], [["a"]]⟩, createdFiles := [["a"]], createdDirs := [],
    events := [.file ["a"]] }

/-- Run a manager operation, keeping the previous state when it throws
(JavaScript exception semantics at the call site). -/
def opOr (m : Mgr) : Except FsError Mgr → Mgr
  | .ok m' => m'
  | .error _ => m

/-- Interleaved creation sequence: directory `a`, then top-level file `f`,
then directory `b`. -/
def mgrA : Mgr := opOr Mgr.empty (Mgr.empty.createDirectory ["a"])

def mgrAF : Mgr := opOr mgrA (mgrA.writeFile ["f"])

def mixedSeq : Mgr := opOr mgrAF (mgrAF.createDirectory ["b"])

/-! ## Supporting lemmas -/

set_option maxRecDepth 20000

/-- A segment that is literally `..` contains two consecutive dots, so any
segment list with a genuine escape segment trips the substring check. -/
theorem any_dotdot_of_escape (segs : List String)
    (h : hasEscapeSeg segs = true) : segs.any segHasDotDot = true := by
  have hm : ".." ∈ segs := by simpa [hasEscapeSeg, List.contains] using h
  rw [List.any_eq_true]
  exact ⟨"..", hm, by decide⟩

/-- Lemma: `addPathIfAbsent` never drops a member. -/
theorem mem_addPathIfAbsent_of_mem {l : List Path} {x p : Path} (h : x ∈ l) :
    x ∈ addPathIfAbsent l p := by
  unfold addPathIfAbsent
  split
  · exact h
  · exact List.mem_append_left _ h

/-- Lemma: `addPathIfAbsent` makes its argument a member. -/
theorem mem_addPathIfAbsent_self (l : List Path) (p : Path) :
    p ∈ addPathIfAbsent l p := by
  unfold addPathIfAbsent
  split
  · next hc => exact List.elem_iff.mp hc
  · exact List.mem_append_right _ (List.mem_singleton.mpr rfl)

/-- Folding `addPathIfAbsent` preserves membership. -/
theorem mem_foldl_addPathIfAbsent_of_mem_init (ps : List Path) :
    ∀ (l : List Path) (x : Path), x ∈ l → x ∈ ps.foldl addPathIfAbsent l := by
  induction ps with
  | nil => intro l x h; exact h
  | cons p ps ih =>
    intro l x h
    exact ih _ x (mem_addPathIfAbsent_of_mem h)

/-- Every folded-in path becomes a member. -/
theorem mem_foldl_addPathIfAbsent_of_mem {ps : List Path} {x : Path}
    (h : x ∈ ps) (l : List Path) : x ∈ ps.foldl addPathIfAbsent l := by
  induction ps generalizing l with
  | nil => cases h
  | cons p ps ih =>
    rcases List.mem_cons.mp h with rfl | hm
    · exact mem_foldl_addPathIfAbsent_of_mem_init ps _ x (mem_addPathIfAbsent_self l x)
    · exact ih hm _

/-- A nonempty path occurs in its own ancestor chain (as the last link). -/
theorem self_mem_ancestorChains (p : Path) (h : p ≠ []) :
    p ∈ ancestorChains p := by
  unfold ancestorChains
  rw [List.mem_map]
  refine ⟨p.length - 1, ?_, ?_⟩
  · rw [List.mem_range]
    have : 0 < p.length := List.length_pos.mpr h
    omega
  · have : p.length - 1 + 1 = p.length := by
      have : 0 < p.length := List.length_pos.mpr h
      omega
    rw [this, List.take_length]

/-! ## C10 — over-rejection of `..` substrings in path sanitization -/

/-- C10: there is a path with no parent-directory escape segment — the file
name merely contains `..` as a substring — that `sanitizePath` rejects with
the path-traversal error, so `createDirectory` and `writeFile` fail on it:
`sub/notes..txt` normalizes to itself, has no `..` segment, yet is
rejected. -/
theorem c10_theorem :
    sanitizePath ("sub/notes..txt") = .error .pathTraversal ∧
    hasParentSegment (normalize ("sub/notes..txt")) = false ∧
    hasEscapeSeg (normSegs (parsePath ("sub/notes..txt"))) = false ∧
    Mgr.empty.createDirectory (parsePath ("sub/notes..txt")) = .error .dirCreateFailed ∧
    Mgr.empty.writeFile (parsePath ("sub/notes..txt")) = .error .fileWriteFailed := by
  decide

/-! ## C6 — path traversal rejection -/

/-- C6 counterexample: the claim says normalization "rejects exactly the
paths whose normalized form still contains a parent-directory escape
segment", but `docs/draft..md` has no escape segment in its normalized form
and is rejected anyway (the source tests for the substring `..`). -/
theorem c6_counterexample :
    sanitizePath ("docs/draft..md") = .error .pathTraversal ∧
    hasParentSegment (normalize ("docs/draft..md")) = false ∧
    hasEscapeSeg (normSegs (parsePath ("docs/draft..md"))) = false := by
  decide

/-- C6 (amended): the call `sanitizePath ("../../etc")` fails with the path-traversal
error and `sanitizePath ("sub/dir")` succeeds, returning the root-confined
path unchanged; normalization resolves `.` and `..` segments, and every
path whose normalized form still contains a parent-directory escape segment
is rejected — but the rejected set is a strict superset of those (see the
counterexample), because the source rejects any normalized path containing
the substring `..`. -/
theorem c6_theorem :
    sanitizePath ("../../etc") = .error .pathTraversal ∧
    sanitizePath ("sub/dir") = .ok ("sub/dir") ∧
    hasEscapeSeg (normSegs (parsePath ("sub/dir"))) = false ∧
    ∀ p : String, hasEscapeSeg (normSegs (parsePath p)) = true →
      sanitizePath p = .error .pathTraversal := by
  refine ⟨by decide, by decide, by decide, ?_⟩
  intro p hp
  unfold sanitizePath sanitizeCheck
  rw [any_dotdot_of_escape _ hp]
  rfl

/-- C6 witness: the general rejection direction applied to a concrete
escaping path. -/
theorem c6_witness :
    hasEscapeSeg (normSegs (parsePath ("a/../../b"))) = true ∧
    sanitizePath ("a/../../b") = .error .pathTraversal :=
  ⟨by decide, c6_theorem.2.2.2 "a/../../b" (by decide)⟩

/-! ## C5 — idempotent directory creation -/

/-- C5: for every manager state and every path that passes sanitization,
calling `createDirectory` twice on the same path succeeds both times; when
the directory does not yet exist, exactly one `directory` entry is appended
to the ledger across the two calls (the second call is a no-op), and when
it already exists both calls are no-ops appending nothing. -/
theorem c5_theorem :
    (∀ (m : Mgr) (p : Path),
       (normSegs p).any segHasDotDot = false →
       m.fs.existsPath (normSegs p) = false →
       ∃ m1, m.createDirectory p = .ok m1 ∧
         m1.createDirectory p = .ok m1 ∧
         m1.createdDirs = m.createdDirs ++ [normSegs p]) ∧
    (∀ (m : Mgr) (p : Path),
       (normSegs p).any segHasDotDot = false →
       m.fs.existsPath (normSegs p) = true →
       m.createDirectory p = .ok m) := by
  constructor
  · intro m p hsan habs
    have hne : normSegs p ≠ [] := by
      intro hnil
      rw [FsState.existsPath, hnil] at habs
      simp at habs
    have hmem : normSegs p ∈ (m.fs.mkdirRecursive (normSegs p)).dirs := by
      unfold FsState.mkdirRecursive
      exact mem_foldl_addPathIfAbsent_of_mem (self_mem_ancestorChains _ hne) _
    refine ⟨{ m with
                fs := m.fs.mkdirRecursive (normSegs p),
                createdDirs := m.createdDirs ++ [normSegs p],
                events := m.events ++ [LEntry.dir (normSegs p)] }, ?_, ?_, rfl⟩
    · simp [Mgr.createDirectory, hsan, habs]
    · have hex2 : ({ m with
              fs := m.fs.mkdirRecursive (normSegs p),
              createdDirs := m.createdDirs ++ [normSegs p],
              events := m.events ++ [LEntry.dir (normSegs p)] } : Mgr).fs.existsPath
            (normSegs p) = true := by
        simp [FsState.existsPath, hmem]
      simp [Mgr.createDirectory, hsan, hex2]
  · intro m p hsan hex
    simp [Mgr.createDirectory, hsan, hex]

/-- C5 witness: a fresh path on the empty manager. -/
theorem c5_witness :
    (normSegs ["sub"]).any segHasDotDot = false ∧
    ∃ m1, Mgr.empty.createDirectory ["sub"] = .ok m1 ∧
      m1.createDirectory ["sub"] = .ok m1 ∧
      m1.createdDirs = Mgr.empty.createdDirs ++ [normSegs ["sub"]] :=
  ⟨by decide, c5_theorem.1 Mgr.empty ["sub"] (by decide) (by decide)⟩

/-! ## C2 — install timeout -/

/-- C2 counterexample: for a subprocess that never exits, the call does
fail with the timeout error carrying the configured value
(`CONFIG.TIMEOUT / 1000 = 300` seconds), but no kill signal is ever issued
and the subprocess is still running after the call fails — refuting the
claim that it "is forcibly terminated so that it is no longer running". -/
theorem c2_counterexample :
    (pmInstall ⟨none, 0⟩).result = .timedOut 300 ∧
    (pmInstall ⟨none, 0⟩).killIssued = false ∧
    (pmInstall ⟨none, 0⟩).childRunsAfter = true := by
  decide

/-- C2 (amended): for every dependency installation whose subprocess has
not exited when the configured timeout elapses, the call fails with an
installation-timeout error carrying the configured timeout value (in
seconds), but the subprocess is NOT terminated: the source never issues a
kill, so the child is abandoned and may still be running afterwards. -/
theorem c2_theorem (sim : SpawnSim) (h : sim.outlivesTimeout) :
    pmInstall sim =
      ⟨.timedOut (CONFIG_TIMEOUT / 1000), false, true⟩ := by
  unfold pmInstall
  cases hc : sim.closeAt with
  | none => rfl
  | some t =>
    have ht := h t hc
    have : ¬ t < CONFIG_TIMEOUT := by omega
    simp [this]

/-- C2 witness: the never-exiting subprocess. -/
theorem c2_witness :
    (⟨none, 0⟩ : SpawnSim).outlivesTimeout ∧
    pmInstall ⟨none, 0⟩ = ⟨.timedOut (CONFIG_TIMEOUT / 1000), false, true⟩ :=
  ⟨(fun _ ht => nomatch ht), c2_theorem ⟨none, 0⟩ (fun _ ht => nomatch ht)⟩

/-! ## Rollback sweep lemmas -/

/-- A file step appends exactly one action, over the processed path. -/
theorem trace_rbFileStep (fail : Path → Bool) (acc : RbState) (p : Path) :
    traceToEntries (rbFileStep fail acc p).trace
      = traceToEntries acc.trace ++ [LEntry.file p] := by
  unfold rbFileStep
  split
  · split <;> simp [traceToEntries, RbAction.entry]
  · simp [traceToEntries, RbAction.entry]

/-- A directory step appends exactly one action, over the processed path. -/
theorem trace_rbDirStep (fail : Path → Bool) (acc : RbState) (p : Path) :
    traceToEntries (rbDirStep fail acc p).trace
      = traceToEntries acc.trace ++ [LEntry.dir p] := by
  unfold rbDirStep
  split
  · split <;> simp [traceToEntries, RbAction.entry]
  · simp [traceToEntries, RbAction.entry]

/-- The file phase processes exactly its list, in order. -/
theorem trace_fileFold (fail : Path → Bool) :
    ∀ (l : List Path) (acc : RbState),
      traceToEntries ((l.foldl (rbFileStep fail) acc).trace)
        = traceToEntries acc.trace ++ l.map LEntry.file := by
  intro l
  induction l with
  | nil => intro acc; simp
  | cons p ps ih =>
    intro acc
    rw [List.foldl_cons, ih, trace_rbFileStep]
    simp

/-- The directory phase processes exactly its list, in order. -/
theorem trace_dirFold (fail : Path → Bool) :
    ∀ (l : List Path) (acc : RbState),
      traceToEntries ((l.foldl (rbDirStep fail) acc).trace)
        = traceToEntries acc.trace ++ l.map LEntry.dir := by
  intro l
  induction l with
  | nil => intro acc; simp
  | cons p ps ih =>
    intro acc
    rw [List.foldl_cons, ih, trace_rbDirStep]
    simp

/-- A file step keeps the error counter synchronized with the number of
failed actions in the trace. -/
theorem errors_rbFileStep (fail : Path → Bool) (acc : RbState) (p : Path)
    (h : acc.errors = countFailures acc.trace) :
    (rbFileStep fail acc p).errors = countFailures (rbFileStep fail acc p).trace := by
  unfold rbFileStep
  split
  · split <;> simp [countFailures, List.filter_append, RbAction.isFailure, h]
  · simp [countFailures, List.filter_append, RbAction.isFailure, h]

/-- A directory step keeps the error counter synchronized. -/
theorem errors_rbDirStep (fail : Path → Bool) (acc : RbState) (p : Path)
    (h : acc.errors = countFailures acc.trace) :
    (rbDirStep fail acc p).errors = countFailures (rbDirStep fail acc p).trace := by
  unfold rbDirStep
  split
  · split <;> simp [countFailures, List.filter_append, RbAction.isFailure, h]
  · simp [countFailures, List.filter_append, RbAction.isFailure, h]

theorem errors_fileFold (fail : Path → Bool) :
    ∀ (l : List Path) (acc : RbState),
      acc.errors = countFailures acc.trace →
      (l.foldl (rbFileStep fail) acc).errors
        = countFailures ((l.foldl (rbFileStep fail) acc).trace) := by
  intro l
  induction l with
  | nil => intro acc h; exact h
  | cons p ps ih => intro acc h; exact ih _ (errors_rbFileStep fail acc p h)

theorem errors_dirFold (fail : Path → Bool) :
    ∀ (l : List Path) (acc : RbState),
      acc.errors = countFailures acc.trace →
      (l.foldl (rbDirStep fail) acc).errors
        = countFailures ((l.foldl (rbDirStep fail) acc).trace) := by
  intro l
  induction l with
  | nil => intro acc h; exact h
  | cons p ps ih => intro acc h; exact ih _ (errors_rbDirStep fail acc p h)

/-- The file phase never touches directories. -/
theorem dirs_rbFileStep (fail : Path → Bool) (acc : RbState) (p : Path) :
    (rbFileStep fail acc p).fs.dirs = acc.fs.dirs := by
  unfold rbFileStep
  split
  · split <;> rfl
  · rfl

theorem dirs_fileFold (fail : Path → Bool) :
    ∀ (l : List Path) (acc : RbState),
      ((l.foldl (rbFileStep fail) acc).fs.dirs) = acc.fs.dirs := by
  intro l
  induction l with
  | nil => intro acc; rfl
  | cons p ps ih => intro acc; rw [List.foldl_cons, ih, dirs_rbFileStep]

/-- The directory phase never touches files. -/
theorem files_rbDirStep (fail : Path → Bool) (acc : RbState) (p : Path) :
    (rbDirStep fail acc p).fs.files = acc.fs.files := by
  unfold rbDirStep
  split
  · split <;> rfl
  · rfl

theorem files_dirFold (fail : Path → Bool) :
    ∀ (l : List Path) (acc : RbState),
      ((l.foldl (rbDirStep fail) acc).fs.files) = acc.fs.files := by
  intro l
  induction l with
  | nil => intro acc; rfl
  | cons p ps ih => intro acc; rw [List.foldl_cons, ih, files_rbDirStep]

/-- A file step deletes nothing but its own path. -/
theorem files_mem_rbFileStep (fail : Path → Bool) (acc : RbState) {p q : Path}
    (hne : p ≠ q) (h : q ∈ acc.fs.files) : q ∈ (rbFileStep fail acc p).fs.files := by
  unfold rbFileStep
  split
  · split
    · exact List.mem_filter.mpr ⟨h, by simp [hne.symm]⟩
    · exact h
  · exact h

theorem files_mem_fileFold (fail : Path → Bool) (q : Path) :
    ∀ (l : List Path) (acc : RbState), (∀ p ∈ l, p ≠ q) → q ∈ acc.fs.files →
      q ∈ ((l.foldl (rbFileStep fail) acc).fs.files) := by
  intro l
  induction l with
  | nil => intro acc _ h; exact h
  | cons p ps ih =>
    intro acc hl h
    exact ih _ (fun x hx => hl x (List.mem_cons_of_mem p hx))
      (files_mem_rbFileStep fail acc (hl p (List.mem_cons_self p ps)) h)

/-- A directory step deletes nothing but its own path. -/
theorem dirs_mem_rbDirStep (fail : Path → Bool) (acc : RbState) {p q : Path}
    (hne : p ≠ q) (h : q ∈ acc.fs.dirs) : q ∈ (rbDirStep fail acc p).fs.dirs := by
  unfold rbDirStep
  split
  · split
    · exact List.mem_filter.mpr ⟨h, by simp [hne.symm]⟩
    · exact h
  · exact h

theorem dirs_mem_dirFold (fail : Path → Bool) (q : Path) :
    ∀ (l : List Path) (acc : RbState), (∀ p ∈ l, p ≠ q) → q ∈ acc.fs.dirs →
      q ∈ ((l.foldl (rbDirStep fail) acc).fs.dirs) := by
  intro l
  induction l with
  | nil => intro acc _ h; exact h
  | cons p ps ih =>
    intro acc hl h
    exact ih _ (fun x hx => hl x (List.mem_cons_of_mem p hx))
      (dirs_mem_rbDirStep fail acc (hl p (List.mem_cons_self p ps)) h)

/-- A directory that still contains a file is skipped by every directory
step (the emptiness guard), so it survives together with its content. -/
theorem keep_rbDirStep (fail : Path → Bool) (acc : RbState) (p d c : Path)
    (hc : isChildOf c d = true) (hcf : c ∈ acc.fs.files) (hd : d ∈ acc.fs.dirs) :
    d ∈ (rbDirStep fail acc p).fs.dirs ∧ c ∈ (rbDirStep fail acc p).fs.files := by
  unfold rbDirStep
  split
  · next hcond =>
    split
    · refine ⟨?_, hcf⟩
      have hemp : acc.fs.readdirEmpty p = true := by
        rw [Bool.and_eq_true] at hcond
        exact hcond.2
      have hpd : d ≠ p := by
        intro hdp
        subst hdp
        simp only [FsState.readdirEmpty, Bool.and_eq_true, Bool.not_eq_true',
          List.any_eq_false] at hemp
        exact absurd hc (by simp [hemp.2 c hcf])
      exact List.mem_filter.mpr ⟨hd, by simp [hpd]⟩
    · exact ⟨hd, hcf⟩
  · exact ⟨hd, hcf⟩

theorem keep_dirFold (fail : Path → Bool) (d c : Path) (hc : isChildOf c d = true) :
    ∀ (l : List Path) (acc : RbState), c ∈ acc.fs.files → d ∈ acc.fs.dirs →
      d ∈ ((l.foldl (rbDirStep fail) acc).fs.dirs) := by
  intro l
  induction l with
  | nil => intro acc _ hd; exact hd
  | cons p ps ih =>
    intro acc hcf hd
    obtain ⟨hd', hcf'⟩ := keep_rbDirStep fail acc p d c hc hcf hd
    exact ih _ hcf' hd'

/-- Invariant: a file reported deleted is indeed gone (file steps). -/
theorem gone_file_rbFileStep (fail : Path → Bool) (acc : RbState) (p : Path)
    (h : ∀ q, RbAction.deletedFile q ∈ acc.trace → q ∉ acc.fs.files) :
    ∀ q, RbAction.deletedFile q ∈ (rbFileStep fail acc p).trace →
      q ∉ (rbFileStep fail acc p).fs.files := by
  unfold rbFileStep
  split
  · split
    · intro q hq hqf
      rcases List.mem_append.mp hq with h1 | h2
      · exact h q h1 (List.mem_of_mem_filter hqf)
      · have hqp : q = p := by simpa using h2
        subst hqp
        have := (List.mem_filter.mp hqf).2
        simp at this
    · intro q hq hqf
      rcases List.mem_append.mp hq with h1 | h2
      · exact h q h1 hqf
      · simp at h2
  · intro q hq hqf
    rcases List.mem_append.mp hq with h1 | h2
    · exact h q h1 hqf
    · simp at h2

/-- Invariant: a file reported deleted is indeed gone (directory steps do
not touch files and only log directory actions). -/
theorem gone_file_rbDirStep (fail : Path → Bool) (acc : RbState) (p : Path)
    (h : ∀ q, RbAction.deletedFile q ∈ acc.trace → q ∉ acc.fs.files) :
    ∀ q, RbAction.deletedFile q ∈ (rbDirStep fail acc p).trace →
      q ∉ (rbDirStep fail acc p).fs.files := by
  unfold rbDirStep
  split
  · split
    · intro q hq
      rcases List.mem_append.mp hq with h1 | h2
      · exact h q h1
      · simp at h2
    · intro q hq
      rcases List.mem_append.mp hq with h1 | h2
      · exact h q h1
      · simp at h2
  · intro q hq
    rcases List.mem_append.mp hq with h1 | h2
    · exact h q h1
    · simp at h2

/-- Invariant: a directory reported deleted is indeed gone (file steps). -/
theorem gone_dir_rbFileStep (fail : Path → Bool) (acc : RbState) (p : Path)
    (h : ∀ q, RbAction.deletedDir q ∈ acc.trace → q ∉ acc.fs.dirs) :
    ∀ q, RbAction.deletedDir q ∈ (rbFileStep fail acc p).trace →
      q ∉ (rbFileStep fail acc p).fs.dirs := by
  unfold rbFileStep
  split
  · split
    · intro q hq
      rcases List.mem_append.mp hq with h1 | h2
      · exact h q h1
      · simp at h2
    · intro q hq
      rcases List.mem_append.mp hq with h1 | h2
      · exact h q h1
      · simp at h2
  · intro q hq
    rcases List.mem_append.mp hq with h1 | h2
    · exact h q h1
    · simp at h2

/-- Invariant: a directory reported deleted is indeed gone (dir steps). -/
theorem gone_dir_rbDirStep (fail : Path → Bool) (acc : RbState) (p : Path)
    (h : ∀ q, RbAction.deletedDir q ∈ acc.trace → q ∉ acc.fs.dirs) :
    ∀ q, RbAction.deletedDir q ∈ (rbDirStep fail acc p).trace →
      q ∉ (rbDirStep fail acc p).fs.dirs := by
  unfold rbDirStep
  split
  · split
    · intro q hq hqf
      rcases List.mem_append.mp hq with h1 | h2
      · exact h q h1 (List.mem_of_mem_filter hqf)
      · have hqp : q = p := by simpa using h2
        subst hqp
        have := (List.mem_filter.mp hqf).2
        simp at this
    · intro q hq hqf
      rcases List.mem_append.mp hq with h1 | h2
      · exact h q h1 hqf
      · simp at h2
  · intro q hq hqf
    rcases List.mem_append.mp hq with h1 | h2
    · exact h q h1 hqf
    · simp at h2

theorem gone_file_fileFold (fail : Path → Bool) :
    ∀ (l : List Path) (acc : RbState),
      (∀ q, RbAction.deletedFile q ∈ acc.trace → q ∉ acc.fs.files) →
      ∀ q, RbAction.deletedFile q ∈ ((l.foldl (rbFileStep fail) acc).trace) →
        q ∉ ((l.foldl (rbFileStep fail) acc).fs.files) := by
  intro l
  induction l with
  | nil => intro acc h; exact h
  | cons p ps ih => intro acc h; exact ih _ (gone_file_rbFileStep fail acc p h)

theorem gone_file_dirFold (fail : Path → Bool) :
    ∀ (l : List Path) (acc : RbState),
      (∀ q, RbAction.deletedFile q ∈ acc.trace → q ∉ acc.fs.files) →
      ∀ q, RbAction.deletedFile q ∈ ((l.foldl (rbDirStep fail) acc).trace) →
        q ∉ ((l.foldl (rbDirStep fail) acc).fs.files) := by
  intro l
  induction l with
  | nil => intro acc h; exact h
  | cons p ps ih => intro acc h; exact ih _ (gone_file_rbDirStep fail acc p h)

theorem gone_dir_fileFold (fail : Path → Bool) :
    ∀ (l : List Path) (acc : RbState),
      (∀ q, RbAction.deletedDir q ∈ acc.trace → q ∉ acc.fs.dirs) →
      ∀ q, RbAction.deletedDir q ∈ ((l.foldl (rbFileStep fail) acc).trace) →
        q ∉ ((l.foldl (rbFileStep fail) acc).fs.dirs) := by
  intro l
  induction l with
  | nil => intro acc h; exact h
  | cons p ps ih => intro acc h; exact ih _ (gone_dir_rbFileStep fail acc p h)

theorem gone_dir_dirFold (fail : Path → Bool) :
    ∀ (l : List Path) (acc : RbState),
      (∀ q, RbAction.deletedDir q ∈ acc.trace → q ∉ acc.fs.dirs) →
      ∀ q, RbAction.deletedDir q ∈ ((l.foldl (rbDirStep fail) acc).trace) →
        q ∉ ((l.foldl (rbDirStep fail) acc).fs.dirs) := by
  intro l
  induction l with
  | nil => intro acc h; exact h
  | cons p ps ih => intro acc h; exact ih _ (gone_dir_rbDirStep fail acc p h)

/-! ## C3 — rollback result reporting -/

/-- C3 counterexample: a tracked directory that holds a foreign file
survives rollback while the error count stays zero — and the method
returns nothing anyway — so it is false that "either every ledger entry
was removed, or the caller receives a non-zero failure count". -/
theorem c3_counterexample :
    (strandedMgr.rollback (fun _ => false)).2.1 = 0 ∧
    ["d"] ∈ (strandedMgr.rollback (fun _ => false)).1.fs.dirs ∧
    ["d"] ∈ strandedMgr.createdDirs := by
  decide

/-- C3 (amended): for every ledger state and every pattern of individual
deletion failures, rollback attempts every ledger entry exactly once and
failures never abort the sweep; the aggregate error count equals the number
of deletion attempts that threw (it is only logged, not returned to the
caller), and every entry whose deletion attempt succeeded is indeed gone.
Entries can survive with a zero count: a tracked directory that is
non-empty at its turn is skipped silently. -/
theorem c3_theorem (m : Mgr) (fail : Path → Bool) :
    (m.rollback fail).2.2.length = m.createdFiles.length + m.createdDirs.length ∧
    (m.rollback fail).2.1 = countFailures (m.rollback fail).2.2 ∧
    (∀ p, RbAction.deletedFile p ∈ (m.rollback fail).2.2 →
      p ∉ (m.rollback fail).1.fs.files) ∧
    (∀ p, RbAction.deletedDir p ∈ (m.rollback fail).2.2 →
      p ∉ (m.rollback fail).1.fs.dirs) := by
  have hr : m.rollback fail =
      ({ m with
          fs := ((m.createdDirs.reverse).foldl (rbDirStep fail)
            ((m.createdFiles.reverse).foldl (rbFileStep fail) ⟨m.fs, 0, []⟩)).fs,
          createdFiles := m.createdFiles.reverse,
          createdDirs := m.createdDirs.reverse },
       ((m.createdDirs.reverse).foldl (rbDirStep fail)
            ((m.createdFiles.reverse).foldl (rbFileStep fail) ⟨m.fs, 0, []⟩)).errors,
       ((m.createdDirs.reverse).foldl (rbDirStep fail)
            ((m.createdFiles.reverse).foldl (rbFileStep fail) ⟨m.fs, 0, []⟩)).trace) := rfl
  rw [hr]
  refine ⟨?_, ?_, ?_, ?_⟩
  · have h1 : traceToEntries (((m.createdDirs.reverse).foldl (rbDirStep fail)
        ((m.createdFiles.reverse).foldl (rbFileStep fail) ⟨m.fs, 0, []⟩)).trace)
        = traceToEntries (([] : List RbAction))
            ++ m.createdFiles.reverse.map LEntry.file
            ++ m.createdDirs.reverse.map LEntry.dir := by
      rw [trace_dirFold, trace_fileFold]
    have h2 := congrArg List.length h1
    simp only [traceToEntries, List.length_map, List.length_append,
      List.length_reverse, List.length_nil] at h2
    simpa using h2
  · exact errors_dirFold fail _ _ (errors_fileFold fail _ _ rfl)
  · exact gone_file_dirFold fail _ _
      (gone_file_fileFold fail _ _ (fun q hq => absurd hq (List.not_mem_nil _)))
  · exact gone_dir_dirFold fail _ _
      (gone_dir_fileFold fail _ _ (fun q hq => absurd hq (List.not_mem_nil _)))

/-- C3 witness: a ledger with one tracked file that is deleted. -/
theorem c3_witness :
    ((simpleMgr.rollback (fun _ => false)).2.2.length
      = simpleMgr.createdFiles.length + simpleMgr.createdDirs.length) ∧
    ((simpleMgr.rollback (fun _ => false)).2.1
      = countFailures (simpleMgr.rollback (fun _ => false)).2.2) ∧
    (RbAction.deletedFile ["a"] ∈ (simpleMgr.rollback (fun _ => false)).2.2 ∧
     ["a"] ∉ (simpleMgr.rollback (fun _ => false)).1.fs.files) :=
  ⟨(c3_theorem simpleMgr (fun _ => false)).1,
   (c3_theorem simpleMgr (fun _ => false)).2.1,
   by decide,
   (c3_theorem simpleMgr (fun _ => false)).2.2.1 ["a"] (by decide)⟩

/-! ## C4 — ledger ordering and safe directory deletion -/

/-- C4 counterexample: for the interleaved sequence (directory `a`, file
`f`, directory `b`) the rollback processing order is file `f`, directory
`b`, directory `a` — not the reverse of the global creation order, which
would start with directory `b`.  All files are processed first, then all
directories. -/
theorem c4_counterexample :
    mixedSeq.events = [.dir ["a"], .file ["f"], .dir ["b"]] ∧
    traceToEntries (mixedSeq.rollback (fun _ => false)).2.2
      = [.file ["f"], .dir ["b"], .dir ["a"]] ∧
    traceToEntries (mixedSeq.rollback (fun _ => false)).2.2 ≠
      mixedSeq.events.reverse := by
  decide

/-- C4 (amended): for every sequence of operations and every failure
pattern, rollback processes the file entries in reverse creation order
first and then the directory entries in reverse creation order (not the
strict reverse of the interleaved creation order); it deletes nothing that
is not recorded in the ledger, so files and directories added by the user
or another process mid-run survive, and a tracked directory that still
contains such a foreign file survives as well (a directory entry is
deleted only if the directory is currently empty). -/
theorem c4_theorem (m : Mgr) (fail : Path → Bool) :
    traceToEntries (m.rollback fail).2.2
      = m.createdFiles.reverse.map LEntry.file
        ++ m.createdDirs.reverse.map LEntry.dir ∧
    (∀ q, q ∈ m.fs.files → q ∉ m.createdFiles →
      q ∈ (m.rollback fail).1.fs.files) ∧
    (∀ d, d ∈ m.fs.dirs → d ∉ m.createdDirs →
      d ∈ (m.rollback fail).1.fs.dirs) ∧
    (∀ d c, isChildOf c d = true → c ∈ m.fs.files → c ∉ m.createdFiles →
      d ∈ m.fs.dirs → d ∈ (m.rollback fail).1.fs.dirs) := by
  have hr : m.rollback fail =
      ({ m with
          fs := ((m.createdDirs.reverse).foldl (rbDirStep fail)
            ((m.createdFiles.reverse).foldl (rbFileStep fail) ⟨m.fs, 0, []⟩)).fs,
          createdFiles := m.createdFiles.reverse,
          createdDirs := m.createdDirs.reverse },
       ((m.createdDirs.reverse).foldl (rbDirStep fail)
            ((m.createdFiles.reverse).foldl (rbFileStep fail) ⟨m.fs, 0, []⟩)).errors,
       ((m.createdDirs.reverse).foldl (rbDirStep fail)
            ((m.createdFiles.reverse).foldl (rbFileStep fail) ⟨m.fs, 0, []⟩)).trace) := rfl
  rw [hr]
  refine ⟨?_, ?_, ?_, ?_⟩
  · rw [trace_dirFold, trace_fileFold]
    simp [traceToEntries]
  · intro q hq hnq
    have hfold1 : q ∈ ((m.createdFiles.reverse).foldl (rbFileStep fail)
        ⟨m.fs, 0, []⟩).fs.files :=
      files_mem_fileFold fail q _ _
        (fun p hp hpq => hnq (hpq ▸ List.mem_reverse.mp hp)) hq
    show q ∈ ((m.createdDirs.reverse).foldl (rbDirStep fail)
        ((m.createdFiles.reverse).foldl (rbFileStep fail) ⟨m.fs, 0, []⟩)).fs.files
    rw [files_dirFold]
    exact hfold1
  · intro d hd hnd
    have hd1 : d ∈ ((m.createdFiles.reverse).foldl (rbFileStep fail)
        ⟨m.fs, 0, []⟩).fs.dirs := by
      rw [dirs_fileFold]
      exact hd
    exact dirs_mem_dirFold fail d _ _
      (fun p hp hpd => hnd (hpd ▸ List.mem_reverse.mp hp)) hd1
  · intro d c hc hcf hncf hd
    have hcf1 : c ∈ ((m.createdFiles.reverse).foldl (rbFileStep fail)
        ⟨m.fs, 0, []⟩).fs.files :=
      files_mem_fileFold fail c _ _
        (fun p hp hpc => hncf (hpc ▸ List.mem_reverse.mp hp)) hcf
    have hd1 : d ∈ ((m.createdFiles.reverse).foldl (rbFileStep fail)
        ⟨m.fs, 0, []⟩).fs.dirs := by
      rw [dirs_fileFold]
      exact hd
    exact keep_dirFold fail d c hc _ _ hcf1 hd1

/-- C4 witness: the order equality on the interleaved sequence, and the
foreign-file / non-empty-directory survival on the stranded ledger. -/
theorem c4_witness :
    (traceToEntries (mixedSeq.rollback (fun _ => false)).2.2
      = mixedSeq.createdFiles.reverse.map LEntry.file
        ++ mixedSeq.createdDirs.reverse.map LEntry.dir) ∧
    (["d", "x"] ∈ (strandedMgr.rollback (fun _ => false)).1.fs.files) ∧
    (["d"] ∈ (strandedMgr.rollback (fun _ => false)).1.fs.dirs) :=
  ⟨(c4_theorem mixedSeq (fun _ => false)).1,
   (c4_theorem strandedMgr (fun _ => false)).2.1 ["d", "x"] (by decide) (by decide),
   (c4_theorem strandedMgr (fun _ => false)).2.2.2 ["d"] ["d", "x"]
     (by decide) (by decide) (by decide) (by decide)⟩

/-! ## C7 — number of package-manager invocations -/

/-- C7 counterexample: with the authentication feature enabled the run
issues three invocations, not exactly two. -/
theorem c7_counterexample :
    (installPlan authCfg).length = 3 ∧ ¬ (installPlan authCfg).length = 2 := by
  decide

/-- C7 (amended): dependency installation issues between two and six
sequential package-manager invocations — a base install (issued with the
dev flag, because an options object is passed where the `dev` boolean is
expected), optional installs for the template engine, the datastore driver
and JWT, a nodemon dev install, and an optional linter dev install; the
count is two exactly when all those options are off.  A failing invocation
short-circuits every later one, and when all succeed every planned
invocation is issued. -/
theorem c7_theorem :
    (∀ cfg : GenConfig,
       (installPlan cfg).length =
         2 + (if cfg.useEjs then 1 else 0) + (if cfg.useDB = .noDb then 0 else 1) +
           (if cfg.features.authentication then 1 else 0) +
           (if cfg.features.linter then 1 else 0) ∧
       (installPlan cfg).head? = some baseReq ∧
       nodemonReq ∈ installPlan cfg) ∧
    (∀ (ok : InstallReq → Bool) (plan : List InstallReq),
       (∀ r ∈ plan, ok r = true) → runInstalls ok plan = (plan, none)) ∧
    (∀ (ok : InstallReq → Bool) (pre : List InstallReq) (r : InstallReq)
       (post : List InstallReq),
       (∀ x ∈ pre, ok x = true) → ok r = false →
       runInstalls ok (pre ++ r :: post) = (pre ++ [r], some r)) := by
  refine ⟨?_, ?_, ?_⟩
  · rintro ⟨name, ejs, db, ⟨auth, lint⟩, git⟩
    cases ejs <;> cases db <;> cases auth <;> cases lint <;>
      simp [installPlan, baseReq, nodemonReq]
  · intro ok plan h
    induction plan with
    | nil => rfl
    | cons r rest ih =>
      have hr : ok r = true := h r (List.mem_cons_self r rest)
      have hrest := ih (fun x hx => h x (List.mem_cons_of_mem r hx))
      simp [runInstalls, hr, hrest]
  · intro ok pre r post hpre hr
    induction pre with
    | nil => simp [runInstalls, hr]
    | cons x pre ih =>
      have hx : ok x = true := hpre x (List.mem_cons_self x pre)
      have htail := ih (fun y hy => hpre y (List.mem_cons_of_mem x hy))
      simp [runInstalls, hx, htail]

/-- C7 witness: the short-circuit lemma applied to the minimal plan with a
failing first invocation. -/
theorem c7_witness :
    (installPlan demoCfg).head? = some baseReq ∧
    runInstalls (fun _ => false) ([] ++ baseReq :: [nodemonReq]) =
      ([] ++ [baseReq], some baseReq) :=
  ⟨(c7_theorem.1 demoCfg).2.1,
   c7_theorem.2.2 (fun _ => false) [] baseReq [nodemonReq] (by simp) rfl⟩

/-! ## C8 — advisory post-hook failure policy -/

/-- C8: for every configuration with version-control initialization
enabled, and every run whose first three stages succeed, a failing stage-4
git-init hook does not fail `generate()` and does not trigger rollback: the
call still returns success, the failure is only recorded as a warning, and
the manager (hence the populated project directory) is exactly the state
reached after stage 3. -/
theorem c8_theorem (cfg : GenConfig) (m0 : Mgr) (instOk : InstallReq → Bool)
    (delFail : Path → Bool)
    (hgit : cfg.initGit = true)
    (hok : (runStages123 cfg m0 instOk).2 = none) :
    (generate cfg m0 instOk delFail true).error = none ∧
    (generate cfg m0 instOk delFail true).rolledBack = false ∧
    (generate cfg m0 instOk delFail true).mgr = (runStages123 cfg m0 instOk).1 ∧
    (generate cfg m0 instOk delFail true).gitWarned = true := by
  rcases hres : runStages123 cfg m0 instOk with ⟨m, e⟩
  rw [hres] at hok
  simp only at hok
  subst hok
  simp [generate, hres, postGenerationWarn, hgit]

/-- C8 witness: the demo configuration with git init enabled, all installs
succeeding, and the git hook failing. -/
theorem c8_witness :
    (runStages123 demoGitCfg Mgr.empty (fun _ => true)).2 = none ∧
    ((generate demoGitCfg Mgr.empty (fun _ => true) (fun _ => false) true).error = none ∧
     (generate demoGitCfg Mgr.empty (fun _ => true) (fun _ => false) true).rolledBack = false ∧
     (generate demoGitCfg Mgr.empty (fun _ => true) (fun _ => false) true).mgr =
       (runStages123 demoGitCfg Mgr.empty (fun _ => true)).1 ∧
     (generate demoGitCfg Mgr.empty (fun _ => true) (fun _ => false) true).gitWarned = true) :=
  ⟨by decide,
   c8_theorem demoGitCfg Mgr.empty (fun _ => true) (fun _ => false) rfl (by decide)⟩

/-! ## C1 — all-or-nothing generation -/

/-- C1 counterexample: in the spec's forced-install-failure scenario the
claim demands that the target root directory not exist at all after
`generate()` returns; instead `demo/` exists and is non-empty. -/
theorem c1_counterexample :
    demoFailRun.error.isSome = true ∧
    demoFailRun.mgr.fs.existsPath ["demo"] = true ∧
    demoFailRun.mgr.fs.readdirEmpty ["demo"] = false := by
  decide

/-- C1 (amended): in the forced-install-failure scenario `generate()`
returns the install error and rollback (with zero deletion errors) removes
every ledger-recorded file and directory — but the ancestor directories
implicitly created by recursive mkdir are never recorded in the ledger, so
the root directory survives, containing exactly the empty untracked
intermediate directories `demo/src` and `demo/public`. -/
theorem c1_theorem :
    demoFailRun.error = some (.installFailed baseReq) ∧
    demoFailRun.rolledBack = true ∧
    demoFailRun.rbErrors = 0 ∧
    demoFailRun.mgr.fs.files = [] ∧
    demoFailRun.mgr.fs.dirs = [["demo"], ["demo", "src"], ["demo", "public"]] := by
  decide

/-! ## C9 — ledger lifecycle -/

/-- C9 counterexample: after a successful `generate()` the ledger still
holds the entries recorded during the run (the success report even reads
them), refuting the claim that no entry survives the call. -/
theorem c9_counterexample :
    demoOkRun.error = none ∧
    (["demo", "logs"] ∈ demoOkRun.mgr.createdDirs) ∧
    (["demo", "package.json"] ∈ demoOkRun.mgr.createdFiles) := by
  decide

/-- C9 (amended): the ledger is instance state of the FileSystemManager and
survives `generate()`: after a successful run it still contains every entry
recorded during the run, and after a failed run rollback leaves both entry
arrays fully populated, merely reversed in place — a subsequent run on the
same manager therefore starts from this residual ledger, not an empty
one. -/
theorem c9_theorem :
    (demoOkRun.mgr.createdDirs = (skeletonDirs false).map (["demo"] ++ ·) ∧
     demoOkRun.mgr.createdFiles = (templateFiles demoCfg).map (["demo"] ++ ·)) ∧
    (demoFailRun.mgr.createdDirs = ((skeletonDirs false).map (["demo"] ++ ·)).reverse ∧
     demoFailRun.mgr.createdFiles = ((templateFiles demoCfg).map (["demo"] ++ ·)).reverse) := by
  decide

end Devweb
